import Mathlib

/-
  Shallow embedding of peloton's TransactionContext
  (src/concurrency/transaction_context.cpp).

  The per-slot read/write state machine, the insert counter, the
  is_written flag, identifier initialization and the on-commit trigger
  registry are translated directly from the C++ source.  A fatal
  assertion (PL_ASSERT(false)) aborts the process; it is embedded as
  Except.error carrying the state at the point the assertion fires
  (in the source every assertion fires before any mutation, so the
  carried state equals the input state).

  Types that live only in headers outside src/ (ItemPointer, RWType,
  IsolationLevelType, INVALID_CID, TriggerData, the GC set types and
  TriggerSet::ExecTriggers) are modelled from the spec, as marked on
  each definition.
-/

/-- Modelled from the spec: SlotLocation / ItemPointer is a pair
(block_id, offset) identifying a physical tuple slot; equality is
structural.  The definition lives in a header outside src/. -/
abbrev ItemPointer : Type := Nat × Nat

/-- Modelled from the spec: the closed enumeration of access modes plus
the lookup sentinel INVALID.  The enum lives in a header outside src/. -/
inductive RWType where
  | INVALID
  | READ
  | READ_OWN
  | UPDATE
  | INSERT
  | DELETE
  | INS_DEL
deriving DecidableEq, Repr

/-- Modelled from the spec: the isolation levels
{Serializable, SnapshotIsolation, RepeatableReads, ReadCommitted}.
The enum lives in a header outside src/. -/
inductive IsolationLevelType where
  | SERIALIZABLE
  | SNAPSHOT
  | REPEATABLE_READS
  | READ_COMMITTED
deriving DecidableEq, Repr

/-- Modelled from the spec: an opaque on-commit trigger payload
(trigger::TriggerData); only identity and ordering matter here. -/
abbrev TriggerData : Type := Nat

/-- Modelled from the spec: gc_set is a map from block ids to maps from
offsets to GC version kinds; only emptiness after Init matters to the
embedded operations, entries are kept abstract as numbers. -/
abbrev GCSet : Type := List (Nat × List (Nat × Nat))

/-- Modelled from the spec: gc_object_set is a sequence of
(database_id, table_id, index_id) triples. -/
abbrev GCObjectSet : Type := List (Nat × Nat × Nat)

/-- Modelled from the spec: INVALID_CID = 0, the reserved commit id used
as the default commit_id argument; the constant lives in a header
outside src/. -/
def INVALID_CID : Nat := 0

/-- The read/write set: a finite map from slot locations to access
modes, embedded as an association list whose keys are unique for every
reachable context (std::unordered_map in the source). -/
abbrev RWSet : Type := List (ItemPointer × RWType)

/-- Lookup in the read/write set: the stored mode of the first entry for
the location, or INVALID when no entry exists (rw_set_.find returning
end() in the source). -/
def getRW : RWSet → ItemPointer → RWType
  | [], _ => RWType.INVALID
  | (l, m) :: rest, loc => if l = loc then m else getRW rest loc

/-- Store into the read/write set: replace the first entry for the
location, or append a new entry (rw_set_[location] = mode in the
source). -/
def setRW : RWSet → ItemPointer → RWType → RWSet
  | [], loc, m => [(loc, m)]
  | (l, m0) :: rest, loc, m =>
      if l = loc then (loc, m) :: rest else (l, m0) :: setRW rest loc m

/-- The transaction context state: the fields of
peloton::concurrency::TransactionContext that the embedded operations
read or write.  The result_ field and the GetInfo string are not
touched by any embedded operation and are omitted. -/
structure TransactionContext where
  txn_id_ : Nat
  thread_id_ : Nat
  isolation_level_ : IsolationLevelType
  read_id_ : Nat
  commit_id_ : Nat
  epoch_id_ : Nat
  rw_set_ : RWSet
  gc_set_ : GCSet
  gc_object_set_ : GCObjectSet
  insert_count_ : Int
  is_written_ : Bool
  on_commit_triggers_ : Option (List TriggerData)
deriving DecidableEq, Repr

deriving instance DecidableEq for Except

namespace TransactionContext

/-- TransactionContext::Init: stores the identifiers, derives the epoch
from the high bits of the read id, clears the written flag and the
insert counter, resets both gc sets to fresh empty containers and drops
the trigger list.  The read/write set is not touched. -/
def Init (t : TransactionContext) (thread_id : Nat)
    (isolation : IsolationLevelType) (read_id : Nat) (commit_id : Nat) :
    TransactionContext :=
  { t with
    read_id_ := read_id
    commit_id_ := commit_id
    txn_id_ := commit_id
    epoch_id_ := read_id >>> 32
    thread_id_ := thread_id
    isolation_level_ := isolation
    is_written_ := false
    insert_count_ := 0
    gc_set_ := []
    gc_object_set_ := []
    on_commit_triggers_ := none }

/-- A default-constructed member state before Init runs: the
std::unordered_map and the unique_ptrs default-construct to empty /
null; the scalar fields are all overwritten by Init. -/
def base : TransactionContext :=
  { txn_id_ := 0, thread_id_ := 0,
    isolation_level_ := IsolationLevelType.SERIALIZABLE,
    read_id_ := 0, commit_id_ := 0, epoch_id_ := 0,
    rw_set_ := [], gc_set_ := [], gc_object_set_ := [],
    insert_count_ := 0, is_written_ := false,
    on_commit_triggers_ := none }

/-- The four-argument constructor: delegates to Init. -/
def mk4 (thread_id : Nat) (isolation : IsolationLevelType)
    (read_id : Nat) (commit_id : Nat) : TransactionContext :=
  Init base thread_id isolation read_id commit_id

/-- The three-argument constructor: delegates to Init with the default
commit id.  Modelled from the spec: the default argument INVALID_CID is
declared in the header outside src/. -/
def mk3 (thread_id : Nat) (isolation : IsolationLevelType)
    (read_id : Nat) : TransactionContext :=
  Init base thread_id isolation read_id INVALID_CID

/-- TransactionContext::GetRWType: current mode of the location, or
INVALID when the location has no entry. -/
def GetRWType (t : TransactionContext) (location : ItemPointer) : RWType :=
  getRW t.rw_set_ location

/-- TransactionContext::RecordRead.  Except.error carries the state at
the fatal assertion. -/
def RecordRead (t : TransactionContext) (location : ItemPointer) :
    Except TransactionContext TransactionContext :=
  match t.GetRWType location with
  | RWType.INVALID =>
      Except.ok { t with rw_set_ := setRW t.rw_set_ location RWType.READ }
  | RWType.READ | RWType.READ_OWN | RWType.UPDATE | RWType.INSERT =>
      Except.ok t
  | RWType.DELETE | RWType.INS_DEL => Except.error t

/-- TransactionContext::RecordReadOwn. -/
def RecordReadOwn (t : TransactionContext) (location : ItemPointer) :
    Except TransactionContext TransactionContext :=
  match t.GetRWType location with
  | RWType.INVALID | RWType.READ =>
      Except.ok { t with rw_set_ := setRW t.rw_set_ location RWType.READ_OWN }
  | RWType.READ_OWN | RWType.UPDATE | RWType.INSERT =>
      Except.ok t
  | RWType.DELETE | RWType.INS_DEL => Except.error t

/-- TransactionContext::RecordUpdate. -/
def RecordUpdate (t : TransactionContext) (location : ItemPointer) :
    Except TransactionContext TransactionContext :=
  match t.GetRWType location with
  | RWType.INVALID =>
      Except.ok { t with rw_set_ := setRW t.rw_set_ location RWType.UPDATE }
  | RWType.READ | RWType.READ_OWN =>
      Except.ok { t with
        rw_set_ := setRW t.rw_set_ location RWType.UPDATE
        is_written_ := true }
  | RWType.UPDATE | RWType.INSERT => Except.ok t
  | RWType.DELETE | RWType.INS_DEL => Except.error t

/-- TransactionContext::RecordInsert: only a location with no entry may
be inserted; every other current mode hits the default fatal
assertion. -/
def RecordInsert (t : TransactionContext) (location : ItemPointer) :
    Except TransactionContext TransactionContext :=
  match t.GetRWType location with
  | RWType.INVALID =>
      Except.ok { t with
        rw_set_ := setRW t.rw_set_ location RWType.INSERT
        insert_count_ := t.insert_count_ + 1 }
  | _ => Except.error t

/-- TransactionContext::RecordDelete: returns true exactly on the
Insert to InsDel collapse. -/
def RecordDelete (t : TransactionContext) (location : ItemPointer) :
    Except TransactionContext (Bool × TransactionContext) :=
  match t.GetRWType location with
  | RWType.INVALID =>
      Except.ok (false,
        { t with rw_set_ := setRW t.rw_set_ location RWType.DELETE })
  | RWType.READ | RWType.READ_OWN =>
      Except.ok (false,
        { t with
          rw_set_ := setRW t.rw_set_ location RWType.DELETE
          is_written_ := true })
  | RWType.UPDATE =>
      Except.ok (false,
        { t with rw_set_ := setRW t.rw_set_ location RWType.DELETE })
  | RWType.INSERT =>
      Except.ok (true,
        { t with
          rw_set_ := setRW t.rw_set_ location RWType.INS_DEL
          insert_count_ := t.insert_count_ - 1 })
  | RWType.DELETE | RWType.INS_DEL => Except.error t

/-- TransactionContext::AddOnCommitTrigger: lazily allocates the trigger
list on first use and appends. -/
def AddOnCommitTrigger (t : TransactionContext) (trigger_data : TriggerData) :
    TransactionContext :=
  match t.on_commit_triggers_ with
  | none => { t with on_commit_triggers_ := some [trigger_data] }
  | some l => { t with on_commit_triggers_ := some (l ++ [trigger_data]) }

/-- Modelled from the spec: TriggerSet::ExecTriggers (declared in
trigger/trigger.h outside src/) fires the queued triggers in list
order; its observable behaviour is embedded as the ordered list of
fired triggers. -/
def execTriggers (l : List TriggerData) : List TriggerData := l

/-- TransactionContext::ExecOnCommitTriggers: calls ExecTriggers only
when a trigger list was allocated; the result is the ordered list of
fired triggers, empty when nothing runs. -/
def ExecOnCommitTriggers (t : TransactionContext) : List TriggerData :=
  match t.on_commit_triggers_ with
  | none => []
  | some s => execTriggers s

end TransactionContext

/-- One executor call on the context: the five Record operations with
their slot argument. -/
inductive Op where
  | read (loc : ItemPointer)
  | readOwn (loc : ItemPointer)
  | update (loc : ItemPointer)
  | ins (loc : ItemPointer)
  | del (loc : ItemPointer)
deriving DecidableEq, Repr

/-- Run one Record call, discarding RecordDelete's boolean result. -/
def step (t : TransactionContext) : Op → Except TransactionContext TransactionContext
  | Op.read loc => t.RecordRead loc
  | Op.readOwn loc => t.RecordReadOwn loc
  | Op.update loc => t.RecordUpdate loc
  | Op.ins loc => t.RecordInsert loc
  | Op.del loc => (t.RecordDelete loc).map Prod.snd

/-- Run a sequence of Record calls; none when some call hits a fatal
assertion instead of completing normally. -/
def runFrom (t : TransactionContext) : List Op → Option TransactionContext
  | [] => some t
  | op :: rest =>
      match step t op with
      | Except.ok t' => runFrom t' rest
      | Except.error _ => none

/-- Number of entries of the read/write set currently in mode INSERT,
counted as an i64 value. -/
def countIns : RWSet → Int
  | [] => 0
  | (_, m) :: rest => (if m = RWType.INSERT then 1 else 0) + countIns rest

/-- Whether one Record call sets the is_written flag in the given state:
an update or delete recorded on a slot currently in mode READ or
READ_OWN. -/
def writesFlag (t : TransactionContext) : Op → Bool
  | Op.update loc =>
      match t.GetRWType loc with
      | RWType.READ | RWType.READ_OWN => true
      | _ => false
  | Op.del loc =>
      match t.GetRWType loc with
      | RWType.READ | RWType.READ_OWN => true
      | _ => false
  | _ => false

/-- Whether some call of the sequence, run from the given state, sets
the is_written flag. -/
def anyWrite (t : TransactionContext) : List Op → Bool
  | [] => false
  | op :: rest =>
      match step t op with
      | Except.ok t' => writesFlag t op || anyWrite t' rest
      | Except.error _ => false

example : runFrom (TransactionContext.mk4 0 IsolationLevelType.SERIALIZABLE 0 0)
    [Op.ins (2, 3), Op.del (2, 3)] =
    some { TransactionContext.base with
           rw_set_ := [((2, 3), RWType.INS_DEL)] } := by decide

example : (runFrom (TransactionContext.mk4 0 IsolationLevelType.SERIALIZABLE 0 0)
    [Op.ins (0, 0), Op.ins (0, 0)]) = none := by decide

/-- Storing a mode changes the INSERT count by the difference of the
indicator of the new mode and the indicator of the overwritten mode. -/
theorem countIns_setRW (s : RWSet) (loc : ItemPointer) (m : RWType) :
    countIns (setRW s loc m) + (if getRW s loc = RWType.INSERT then (1 : Int) else 0)
      = countIns s + (if m = RWType.INSERT then (1 : Int) else 0) := by
  induction s with
  | nil => simp [setRW, getRW, countIns]
  | cons p rest ih =>
    obtain ⟨l, m0⟩ := p
    by_cases h : l = loc
    · subst h
      simp [setRW, getRW, countIns]
      ring
    · simp [setRW, getRW, countIns, h]
      linarith [ih]

theorem countIns_setRW_stable (s : RWSet) (loc : ItemPointer) (m : RWType)
    (hg : getRW s loc ≠ RWType.INSERT) (hm : m ≠ RWType.INSERT) :
    countIns (setRW s loc m) = countIns s := by
  have h := countIns_setRW s loc m
  simp [hg, hm] at h
  linarith

theorem countIns_setRW_toIns (s : RWSet) (loc : ItemPointer)
    (hg : getRW s loc ≠ RWType.INSERT) :
    countIns (setRW s loc RWType.INSERT) = countIns s + 1 := by
  have h := countIns_setRW s loc RWType.INSERT
  simp [hg] at h
  linarith

theorem countIns_setRW_fromIns (s : RWSet) (loc : ItemPointer) (m : RWType)
    (hg : getRW s loc = RWType.INSERT) (hm : m ≠ RWType.INSERT) :
    countIns (setRW s loc m) = countIns s - 1 := by
  have h := countIns_setRW s loc m
  simp [hg, hm] at h
  linarith

/-- Every entry of the updated set is the new entry or an old entry. -/
theorem mem_setRW (s : RWSet) (loc : ItemPointer) (m : RWType) :
    ∀ p ∈ setRW s loc m, p = (loc, m) ∨ p ∈ s := by
  induction s with
  | nil =>
    intro p hp
    simp [setRW] at hp
    exact Or.inl hp
  | cons q rest ih =>
    obtain ⟨l, m0⟩ := q
    intro p hp
    by_cases h : l = loc
    · subst h
      rw [setRW, if_pos rfl] at hp
      rcases List.mem_cons.mp hp with hp | hp
      · exact Or.inl hp
      · exact Or.inr (List.mem_cons_of_mem _ hp)
    · rw [setRW, if_neg h] at hp
      rcases List.mem_cons.mp hp with hp | hp
      · exact Or.inr (hp ▸ List.mem_cons_self _ _)
      · rcases ih p hp with hp' | hp'
        · exact Or.inl hp'
        · exact Or.inr (List.mem_cons_of_mem _ hp')

/-- A key of the updated set is the stored key or an old key. -/
theorem mem_keys_setRW (s : RWSet) (loc : ItemPointer) (m : RWType)
    (a : ItemPointer) (ha : a ∈ (setRW s loc m).map Prod.fst) :
    a = loc ∨ a ∈ s.map Prod.fst := by
  simp only [List.mem_map] at ha
  obtain ⟨p, hp, hpa⟩ := ha
  rcases mem_setRW s loc m p hp with h | h
  · left; rw [← hpa, h]
  · right; exact List.mem_map.mpr ⟨p, h, hpa⟩

/-- Storing preserves uniqueness of the keys of the read/write set. -/
theorem nodup_keys_setRW (s : RWSet) (loc : ItemPointer) (m : RWType)
    (hn : (s.map Prod.fst).Nodup) : ((setRW s loc m).map Prod.fst).Nodup := by
  induction s with
  | nil => simp [setRW]
  | cons q rest ih =>
    obtain ⟨l, m0⟩ := q
    simp only [List.map_cons, List.nodup_cons] at hn
    obtain ⟨hl, hrest⟩ := hn
    by_cases h : l = loc
    · subst h
      rw [setRW, if_pos rfl]
      simp only [List.map_cons, List.nodup_cons]
      exact ⟨hl, hrest⟩
    · rw [setRW, if_neg h]
      simp only [List.map_cons, List.nodup_cons]
      refine ⟨fun hmem => ?_, ih hrest⟩
      rcases mem_keys_setRW rest loc m l hmem with h' | h'
      · exact h h'
      · exact hl h'

/-- When no stored mode is INVALID, lookup returns INVALID exactly on
the locations that have no entry. -/
theorem getRW_eq_invalid_iff (s : RWSet) (loc : ItemPointer)
    (hv : ∀ p ∈ s, p.2 ≠ RWType.INVALID) :
    (getRW s loc = RWType.INVALID ↔ ∀ p ∈ s, p.1 ≠ loc) := by
  induction s with
  | nil => simp [getRW]
  | cons q rest ih =>
    obtain ⟨l, m0⟩ := q
    by_cases h : l = loc
    · subst h
      have hm0 : m0 ≠ RWType.INVALID := hv (l, m0) (List.mem_cons_self _ _)
      simp [getRW, hm0]
    · have hv' : ∀ p ∈ rest, p.2 ≠ RWType.INVALID :=
        fun p hp => hv p (List.mem_cons_of_mem _ hp)
      simp only [getRW, if_neg h, List.mem_cons]
      rw [ih hv']
      constructor
      · intro hall p hp
        rcases hp with hp | hp
        · rw [hp]; exact h
        · exact hall p hp
      · intro hall p hp
        exact hall p (Or.inr hp)

/-- The reachability invariant of the read/write set: the insert
counter matches the number of INSERT entries, no entry stores INVALID,
and keys are unique. -/
def RWInv (t : TransactionContext) : Prop :=
  t.insert_count_ = countIns t.rw_set_ ∧
  (∀ p ∈ t.rw_set_, p.2 ≠ RWType.INVALID) ∧
  (t.rw_set_.map Prod.fst).Nodup

theorem RWInv_mk4 (th : Nat) (iso : IsolationLevelType) (rid cid : Nat) :
    RWInv (TransactionContext.mk4 th iso rid cid) := by
  refine ⟨rfl, ?_, ?_⟩ <;> simp [TransactionContext.mk4, TransactionContext.Init,
    TransactionContext.base, countIns]

/-- A context whose read/write set is an update of an invariant-holding
context, with the matching insert-counter change, satisfies the
invariant. -/
theorem RWInv_set (t t' : TransactionContext) (loc : ItemPointer) (m : RWType)
    (hInv : RWInv t) (hm : m ≠ RWType.INVALID)
    (hrw : t'.rw_set_ = setRW t.rw_set_ loc m)
    (hic : t'.insert_count_ = t.insert_count_
        + (if m = RWType.INSERT then (1 : Int) else 0)
        - (if getRW t.rw_set_ loc = RWType.INSERT then (1 : Int) else 0)) :
    RWInv t' := by
  obtain ⟨hc, hv, hn⟩ := hInv
  refine ⟨?_, ?_, ?_⟩
  · rw [hic, hrw, hc]
    have h := countIns_setRW t.rw_set_ loc m
    linarith
  · rw [hrw]
    intro p hp
    rcases mem_setRW _ _ _ p hp with h' | h'
    · rw [h']; exact hm
    · exact hv p h'
  · rw [hrw]
    exact nodup_keys_setRW _ _ _ hn

/-- Every Record call that completes normally preserves the read/write
set invariant. -/
theorem step_RWInv (t t' : TransactionContext) (op : Op)
    (hInv : RWInv t) (h : step t op = Except.ok t') : RWInv t' := by
  cases op with
  | read loc =>
    cases hg : t.GetRWType loc <;>
        simp [step, TransactionContext.RecordRead, hg] at h <;> subst h
    · exact RWInv_set t _ loc RWType.READ hInv (by decide) rfl
        (by have hg' : getRW t.rw_set_ loc = RWType.INVALID := hg; simp [hg'])
    all_goals exact hInv
  | readOwn loc =>
    cases hg : t.GetRWType loc <;>
        simp [step, TransactionContext.RecordReadOwn, hg] at h <;> subst h
    · exact RWInv_set t _ loc RWType.READ_OWN hInv (by decide) rfl
        (by have hg' : getRW t.rw_set_ loc = RWType.INVALID := hg; simp [hg'])
    · exact RWInv_set t _ loc RWType.READ_OWN hInv (by decide) rfl
        (by have hg' : getRW t.rw_set_ loc = RWType.READ := hg; simp [hg'])
    all_goals exact hInv
  | update loc =>
    cases hg : t.GetRWType loc <;>
        simp [step, TransactionContext.RecordUpdate, hg] at h <;> subst h
    · exact RWInv_set t _ loc RWType.UPDATE hInv (by decide) rfl
        (by have hg' : getRW t.rw_set_ loc = RWType.INVALID := hg; simp [hg'])
    · exact RWInv_set t _ loc RWType.UPDATE hInv (by decide) rfl
        (by have hg' : getRW t.rw_set_ loc = RWType.READ := hg; simp [hg'])
    · exact RWInv_set t _ loc RWType.UPDATE hInv (by decide) rfl
        (by have hg' : getRW t.rw_set_ loc = RWType.READ_OWN := hg; simp [hg'])
    all_goals exact hInv
  | ins loc =>
    cases hg : t.GetRWType loc <;>
        simp [step, TransactionContext.RecordInsert, hg] at h
    case INVALID =>
      subst h
      exact RWInv_set t _ loc RWType.INSERT hInv (by decide) rfl
        (by have hg' : getRW t.rw_set_ loc = RWType.INVALID := hg; simp [hg'])
  | del loc =>
    cases hg : t.GetRWType loc <;>
        simp [step, TransactionContext.RecordDelete, hg, Except.map] at h <;> subst h
    · exact RWInv_set t _ loc RWType.DELETE hInv (by decide) rfl
        (by have hg' : getRW t.rw_set_ loc = RWType.INVALID := hg; simp [hg'])
    · exact RWInv_set t _ loc RWType.DELETE hInv (by decide) rfl
        (by have hg' : getRW t.rw_set_ loc = RWType.READ := hg; simp [hg'])
    · exact RWInv_set t _ loc RWType.DELETE hInv (by decide) rfl
        (by have hg' : getRW t.rw_set_ loc = RWType.READ_OWN := hg; simp [hg'])
    · exact RWInv_set t _ loc RWType.DELETE hInv (by decide) rfl
        (by have hg' : getRW t.rw_set_ loc = RWType.UPDATE := hg; simp [hg'])
    · exact RWInv_set t _ loc RWType.INS_DEL hInv (by decide) rfl
        (by have hg' : getRW t.rw_set_ loc = RWType.INSERT := hg; simp [hg'])

/-- A normally completing sequence of Record calls preserves the
read/write set invariant. -/
theorem runFrom_RWInv (ops : List Op) :
    ∀ t t' : TransactionContext, RWInv t → runFrom t ops = some t' → RWInv t' := by
  induction ops with
  | nil =>
    intro t t' hInv h
    simp [runFrom] at h
    exact h ▸ hInv
  | cons op rest ih =>
    intro t t' hInv h
    unfold runFrom at h
    cases hs : step t op with
    | error e => rw [hs] at h; simp at h
    | ok t1 =>
      rw [hs] at h
      exact ih t1 t' (step_RWInv t t1 op hInv hs) h

/-- A normally completing Record call updates the is_written flag by
exactly the writesFlag condition of the call. -/
theorem step_is_written (t t' : TransactionContext) (op : Op)
    (h : step t op = Except.ok t') :
    t'.is_written_ = (t.is_written_ || writesFlag t op) := by
  cases op with
  | read loc =>
    cases hg : t.GetRWType loc <;>
      simp [step, TransactionContext.RecordRead, hg] at h <;>
      subst h <;> simp [writesFlag, hg]
  | readOwn loc =>
    cases hg : t.GetRWType loc <;>
      simp [step, TransactionContext.RecordReadOwn, hg] at h <;>
      subst h <;> simp [writesFlag, hg]
  | update loc =>
    cases hg : t.GetRWType loc <;>
      simp [step, TransactionContext.RecordUpdate, hg] at h <;>
      subst h <;> simp [writesFlag, hg]
  | ins loc =>
    cases hg : t.GetRWType loc <;>
      simp [step, TransactionContext.RecordInsert, hg] at h
    case INVALID =>
      subst h
      simp [writesFlag, hg]
  | del loc =>
    cases hg : t.GetRWType loc <;>
      simp [step, TransactionContext.RecordDelete, hg, Except.map] at h <;>
      subst h <;> simp [writesFlag, hg]

/-- Over a normally completing sequence, is_written is the initial flag
joined with the per-call write conditions. -/
theorem runFrom_is_written (ops : List Op) :
    ∀ t t' : TransactionContext, runFrom t ops = some t' →
    t'.is_written_ = (t.is_written_ || anyWrite t ops) := by
  induction ops with
  | nil =>
    intro t t' h
    simp [runFrom] at h
    subst h
    simp [anyWrite]
  | cons op rest ih =>
    intro t t' h
    unfold runFrom at h
    cases hs : step t op with
    | error e => rw [hs] at h; simp at h
    | ok t1 =>
      rw [hs] at h
      have h1 := step_is_written t t1 op hs
      have h2 := ih t1 t' h
      simp [anyWrite, hs, h2, h1, Bool.or_assoc]

/-- Appending registrations extends an already-allocated trigger list
on the right. -/
theorem foldl_add_triggers (ts : List TriggerData) :
    ∀ (t : TransactionContext) (l : List TriggerData),
    t.on_commit_triggers_ = some l →
    (ts.foldl TransactionContext.AddOnCommitTrigger t).on_commit_triggers_
      = some (l ++ ts) := by
  induction ts with
  | nil =>
    intro t l h
    simpa using h
  | cons x rest ih =>
    intro t l h
    simp only [List.foldl_cons]
    have h1 : (t.AddOnCommitTrigger x).on_commit_triggers_ = some (l ++ [x]) := by
      simp [TransactionContext.AddOnCommitTrigger, h]
    have h2 := ih (t.AddOnCommitTrigger x) (l ++ [x]) h1
    simpa [List.append_assoc] using h2

/-- Registering a sequence of triggers on a context with no allocated
trigger list and then executing fires exactly that sequence in
order. -/
theorem exec_after_register (t : TransactionContext)
    (h : t.on_commit_triggers_ = none) (ts : List TriggerData) :
    (ts.foldl TransactionContext.AddOnCommitTrigger t).ExecOnCommitTriggers = ts := by
  cases ts with
  | nil => simp [TransactionContext.ExecOnCommitTriggers, h]
  | cons x rest =>
    simp only [List.foldl_cons]
    have h1 : (t.AddOnCommitTrigger x).on_commit_triggers_ = some [x] := by
      simp [TransactionContext.AddOnCommitTrigger, h]
    have h2 := foldl_add_triggers rest (t.AddOnCommitTrigger x) [x] h1
    simp [TransactionContext.ExecOnCommitTriggers, h2, TransactionContext.execTriggers]

/-- The INSERT count of the read/write set is the length of its
filtered INSERT entries. -/
theorem countIns_eq_filter_length (s : RWSet) :
    countIns s = ((s.filter (fun p => p.2 = RWType.INSERT)).length : Int) := by
  induction s with
  | nil => simp [countIns]
  | cons p rest ih =>
    obtain ⟨l, m⟩ := p
    by_cases h : m = RWType.INSERT
    · simp [countIns, h, List.filter_cons, ih]
      omega
    · simp [countIns, h, List.filter_cons, ih]

/-- With unique keys, the INSERT count is the number of distinct slot
locations currently stored in mode INSERT. -/
theorem countIns_eq_card (s : RWSet) (hn : (s.map Prod.fst).Nodup) :
    countIns s =
      (((s.filter (fun p => p.2 = RWType.INSERT)).map Prod.fst).toFinset.card : Int) := by
  have hsub : List.Sublist ((s.filter (fun p => p.2 = RWType.INSERT)).map Prod.fst)
      (s.map Prod.fst) :=
    (List.filter_sublist s).map Prod.fst
  have h1 : ((s.filter (fun p => p.2 = RWType.INSERT)).map Prod.fst).Nodup :=
    List.Nodup.sublist hsub hn
  rw [countIns_eq_filter_length, List.toFinset_card_of_nodup h1, List.length_map]

/-- Sample context reached by the run used in the C1 witness. -/
def c1ctx : TransactionContext :=
  { TransactionContext.base with
    rw_set_ := [((2, 3), RWType.INSERT), ((5, 7), RWType.INS_DEL),
                ((1, 0), RWType.READ)],
    insert_count_ := 1 }

/-- C1: after any normally completing sequence of Record calls on a
freshly constructed context, insert_count equals the number of slot
locations whose current mode in rw_set is Insert. -/
theorem insert_count_matches_rw_set (th : Nat) (iso : IsolationLevelType)
    (rid cid : Nat) (ops : List Op) (t : TransactionContext)
    (h : runFrom (TransactionContext.mk4 th iso rid cid) ops = some t) :
    t.insert_count_ =
      (((t.rw_set_.filter (fun p => p.2 = RWType.INSERT)).map
          Prod.fst).toFinset.card : Int) := by
  obtain ⟨hc, hv, hn⟩ := runFrom_RWInv ops _ t (RWInv_mk4 th iso rid cid) h
  rw [hc, countIns_eq_card t.rw_set_ hn]

/-- C1 witness: a concrete run (insert, insert, delete of the second
insert, read) whose surviving INSERT entries number exactly one. -/
theorem insert_count_matches_rw_set_witness :
    c1ctx.insert_count_ =
      (((c1ctx.rw_set_.filter (fun p => p.2 = RWType.INSERT)).map
          Prod.fst).toFinset.card : Int) :=
  insert_count_matches_rw_set 0 IsolationLevelType.SERIALIZABLE 0 0
    [Op.ins (2, 3), Op.ins (5, 7), Op.del (5, 7), Op.read (1, 0)] c1ctx
    (by decide)

/-- Sample context holding an own-inserted slot, for the C2 witness. -/
def c2ctx : TransactionContext :=
  { TransactionContext.base with
    rw_set_ := [((0, 0), RWType.INSERT)], insert_count_ := 1 }

/-- C2: whenever RecordDelete completes normally, it returns true
exactly when the mode of the slot immediately before the call was
Insert; in every other completing case it returns false. -/
theorem recordDelete_true_iff_insert (t : TransactionContext)
    (loc : ItemPointer) (b : Bool) (t' : TransactionContext)
    (h : t.RecordDelete loc = Except.ok (b, t')) :
    b = true ↔ t.GetRWType loc = RWType.INSERT := by
  cases hg : t.GetRWType loc <;>
    simp [TransactionContext.RecordDelete, hg] at h
  all_goals obtain ⟨hb, ht⟩ := h
  all_goals subst hb
  all_goals simp [hg]

/-- C2 witness: deleting an own-inserted slot returns true. -/
theorem recordDelete_true_iff_insert_witness :
    true = true ↔ c2ctx.GetRWType (0, 0) = RWType.INSERT :=
  recordDelete_true_iff_insert c2ctx (0, 0) true
    { c2ctx with rw_set_ := [((0, 0), RWType.INS_DEL)], insert_count_ := 0 }
    (by decide)

/-- C4 counterexample: after a RecordInsert the slot is in mode Insert,
yet a second RecordInsert on the same slot does not complete normally
(the default branch of the switch is the fatal assertion). -/
theorem recordInsert_on_insert_counterexample :
    (runFrom (TransactionContext.mk4 0 IsolationLevelType.SERIALIZABLE 0 0)
        [Op.ins (0, 0)]).map (fun c => c.GetRWType (0, 0))
      = some RWType.INSERT ∧
    runFrom (TransactionContext.mk4 0 IsolationLevelType.SERIALIZABLE 0 0)
        [Op.ins (0, 0), Op.ins (0, 0)] = none :=
  ⟨by decide, by decide⟩

/-- C4 amended: RecordInsert on a slot currently in mode Insert fails
with the fatal assertion rather than completing normally; the carried
state equals the input state, so rw_set, insert_count and is_written
are unchanged at the assertion point. -/
theorem recordInsert_on_insert_fatal (t : TransactionContext)
    (loc : ItemPointer) (h : t.GetRWType loc = RWType.INSERT) :
    t.RecordInsert loc = Except.error t := by
  simp [TransactionContext.RecordInsert, h]

/-- Sample context holding an own-inserted slot, for the C4 witness. -/
def c4ctx : TransactionContext :=
  { TransactionContext.base with
    rw_set_ := [((0, 0), RWType.INSERT)], insert_count_ := 1 }

/-- C4 amended witness: a second insert of an own-inserted slot is
fatal. -/
theorem recordInsert_on_insert_fatal_witness :
    c4ctx.RecordInsert (0, 0) = Except.error c4ctx :=
  recordInsert_on_insert_fatal c4ctx (0, 0) (by decide)

/-- Sample context holding a deleted slot, for the C5 witness. -/
def c5ctx : TransactionContext :=
  { TransactionContext.base with rw_set_ := [((3, 0), RWType.DELETE)] }

/-- C5: once a slot is in mode Delete or InsDel, each of the five Record
calls on it fails with the fatal assertion instead of completing
normally; the carried state equals the input state, so rw_set,
insert_count and is_written are unchanged by the failing call. -/
theorem terminal_modes_fatal (t : TransactionContext) (loc : ItemPointer)
    (h : t.GetRWType loc = RWType.DELETE ∨ t.GetRWType loc = RWType.INS_DEL) :
    t.RecordRead loc = Except.error t ∧
    t.RecordReadOwn loc = Except.error t ∧
    t.RecordUpdate loc = Except.error t ∧
    t.RecordInsert loc = Except.error t ∧
    t.RecordDelete loc = Except.error t := by
  rcases h with h | h <;>
    simp [TransactionContext.RecordRead, TransactionContext.RecordReadOwn,
      TransactionContext.RecordUpdate, TransactionContext.RecordInsert,
      TransactionContext.RecordDelete, h]

/-- C5 witness: all five Record calls are fatal on a slot in mode
Delete. -/
theorem terminal_modes_fatal_witness :
    c5ctx.RecordRead (3, 0) = Except.error c5ctx ∧
    c5ctx.RecordReadOwn (3, 0) = Except.error c5ctx ∧
    c5ctx.RecordUpdate (3, 0) = Except.error c5ctx ∧
    c5ctx.RecordInsert (3, 0) = Except.error c5ctx ∧
    c5ctx.RecordDelete (3, 0) = Except.error c5ctx :=
  terminal_modes_fatal c5ctx (3, 0) (Or.inl (by decide))

/-- C3 counterexample: on a fresh context, inserting a slot and then
deleting it completes normally and takes the collapse path (RecordDelete
returns true and the slot ends in mode InsDel), yet is_written is
false, contradicting the claimed disjunct that the collapse path sets
the flag. -/
theorem is_written_collapse_counterexample :
    ((TransactionContext.mk4 0 IsolationLevelType.SERIALIZABLE 0 0).RecordInsert
        (0, 0)).bind
      (fun c => (c.RecordDelete (0, 0)).map
        (fun r => (r.1, r.2.is_written_, r.2.GetRWType (0, 0))))
    = Except.ok (true, false, RWType.INS_DEL) := by decide

/-- C3 amended: after a normally completing sequence of Record calls on
a fresh context, is_written is true exactly when some call of the
sequence was a RecordUpdate or RecordDelete on a slot whose mode at the
time of that call was Read or ReadOwn; the Insert to InsDel collapse
does not set the flag. -/
theorem is_written_iff_write_recorded (th : Nat) (iso : IsolationLevelType)
    (rid cid : Nat) (ops : List Op) (t : TransactionContext)
    (h : runFrom (TransactionContext.mk4 th iso rid cid) ops = some t) :
    (t.is_written_ = true ↔
      anyWrite (TransactionContext.mk4 th iso rid cid) ops = true) := by
  have h1 := runFrom_is_written ops _ t h
  have h0 : (TransactionContext.mk4 th iso rid cid).is_written_ = false := rfl
  rw [h1, h0]
  simp

/-- Context reached by the run used in the C3 witness. -/
def c3ctx : TransactionContext :=
  { TransactionContext.base with
    rw_set_ := [((1, 0), RWType.UPDATE)], is_written_ := true }

/-- C3 amended witness: a read followed by an update of the same slot
sets the flag, and the run satisfies the equivalence. -/
theorem is_written_iff_write_recorded_witness :
    c3ctx.is_written_ = true ↔
      anyWrite (TransactionContext.mk4 0 IsolationLevelType.SERIALIZABLE 0 0)
        [Op.read (1, 0), Op.update (1, 0)] = true :=
  is_written_iff_write_recorded 0 IsolationLevelType.SERIALIZABLE 0 0
    [Op.read (1, 0), Op.update (1, 0)] c3ctx (by decide)

/-- C6: after every constructor and every Init call, the cached epoch id
is the stored read id shifted right 32 bits, and the transaction id
equals the supplied commit id (INVALID_CID for the three-argument
form). -/
theorem epoch_id_and_txn_id_after_init (t : TransactionContext) (th : Nat)
    (iso : IsolationLevelType) (rid cid : Nat) :
    ((t.Init th iso rid cid).epoch_id_ = (t.Init th iso rid cid).read_id_ >>> 32 ∧
     (t.Init th iso rid cid).txn_id_ = cid) ∧
    ((TransactionContext.mk4 th iso rid cid).epoch_id_ =
        (TransactionContext.mk4 th iso rid cid).read_id_ >>> 32 ∧
     (TransactionContext.mk4 th iso rid cid).txn_id_ = cid) ∧
    ((TransactionContext.mk3 th iso rid).epoch_id_ =
        (TransactionContext.mk3 th iso rid).read_id_ >>> 32 ∧
     (TransactionContext.mk3 th iso rid).txn_id_ = INVALID_CID) :=
  ⟨⟨rfl, rfl⟩, ⟨rfl, rfl⟩, ⟨rfl, rfl⟩⟩

/-- C7: after a normally completing sequence of Record calls on a fresh
context, no stored mode is INVALID, and GetRWType returns INVALID
exactly on the locations that have no entry in rw_set. -/
theorem no_invalid_mode_stored (th : Nat) (iso : IsolationLevelType)
    (rid cid : Nat) (ops : List Op) (t : TransactionContext)
    (h : runFrom (TransactionContext.mk4 th iso rid cid) ops = some t) :
    (∀ p ∈ t.rw_set_, p.2 ≠ RWType.INVALID) ∧
    (∀ loc : ItemPointer,
      t.GetRWType loc = RWType.INVALID ↔ ∀ p ∈ t.rw_set_, p.1 ≠ loc) := by
  obtain ⟨-, hv, -⟩ := runFrom_RWInv ops _ t (RWInv_mk4 th iso rid cid) h
  exact ⟨hv, fun loc => getRW_eq_invalid_iff t.rw_set_ loc hv⟩

/-- C7 witness: after one recorded read, an untouched location still
looks up as INVALID. -/
theorem no_invalid_mode_stored_witness :
    ({ TransactionContext.base with
       rw_set_ := [((1, 0), RWType.READ)] } : TransactionContext).GetRWType
      (9, 9) = RWType.INVALID :=
  ((no_invalid_mode_stored 0 IsolationLevelType.SERIALIZABLE 0 0
      [Op.read (1, 0)]
      { TransactionContext.base with rw_set_ := [((1, 0), RWType.READ)] }
      (by decide)).2 (9, 9)).mpr (by decide)

/-- C8: the upgrade chain read, read-own, update, delete on one slot of
a fresh context completes normally, RecordDelete returns false, and the
final state is one Delete entry with is_written true and insert_count
zero. -/
theorem upgrade_chain_scenario :
    ((TransactionContext.mk4 1 IsolationLevelType.SERIALIZABLE 0 0).RecordRead
        (4, 0)).bind
      (fun c1 => (c1.RecordReadOwn (4, 0)).bind
        (fun c2 => (c2.RecordUpdate (4, 0)).bind
          (fun c3 => (c3.RecordDelete (4, 0)).map
            (fun r => (r.1, r.2.rw_set_, r.2.is_written_, r.2.insert_count_)))))
    = Except.ok (false, [((4, 0), RWType.DELETE)], true, 0) := by decide

/-- C9: registering any sequence of triggers on a fresh context and then
executing fires exactly that sequence in registration order; with no
registration the trigger list is never allocated and executing fires
nothing (the none branch skips the ExecTriggers call entirely). -/
theorem triggers_fire_in_registration_order (th : Nat)
    (iso : IsolationLevelType) (rid cid : Nat) (ts : List TriggerData) :
    (ts.foldl TransactionContext.AddOnCommitTrigger
        (TransactionContext.mk4 th iso rid cid)).ExecOnCommitTriggers = ts ∧
    (TransactionContext.mk4 th iso rid cid).on_commit_triggers_ = none ∧
    (TransactionContext.mk4 th iso rid cid).ExecOnCommitTriggers = [] :=
  ⟨exec_after_register _ rfl ts, rfl, rfl⟩

/-- C10: Init leaves the read/write set exactly as it was while clearing
the written flag, the insert counter, both gc sets and the trigger list;
in particular re-running Init on a context with Insert entries yields
insert_count zero with those entries still present. -/
theorem init_preserves_rw_set (t : TransactionContext) (th : Nat)
    (iso : IsolationLevelType) (rid cid : Nat) :
    (t.Init th iso rid cid).rw_set_ = t.rw_set_ ∧
    (t.Init th iso rid cid).is_written_ = false ∧
    (t.Init th iso rid cid).insert_count_ = 0 ∧
    (t.Init th iso rid cid).gc_set_ = [] ∧
    (t.Init th iso rid cid).gc_object_set_ = [] ∧
    (t.Init th iso rid cid).on_commit_triggers_ = none :=
  ⟨rfl, rfl, rfl, rfl, rfl, rfl⟩
